import Mathlib

/-!
Verification of the job-scraper aggregation and filtering pipeline.

The definitions below are a shallow embedding of the Python sources:
`job_scraper.py` (keyword configuration, `is_eu_friendly`, `is_entry_level`,
the deduplication and filtering steps of `scrape_and_filter_jobs`),
`app.py` (`save_jobs_to_db`, `run_scraper`), and `remote_boards.py` /
`swedish_boards.py` (`safe_scrape` and the feed-adapter body pattern).
Pandas dataframes are embedded as lists of records, the SQLite `jobs`
table as a list of rows whose `job_url` column is unique, and a Python
exception as the `.error` case of `Except`.
-/

/-- A record flowing through the pipeline: one row of the combined
dataframe in `scrape_and_filter_jobs`.  `is_sweden_local` and
`is_remote_board` are the flag columns attached per-source; a record
from a source that does not set the flag has the field `false`
(the `row.get(..., False)` default). -/
structure Job where
  title : String
  company : String
  job_url : String
  date_posted : String
  location : String
  description : String
  site : String
  is_sweden_local : Bool
  is_remote_board : Bool
deriving Repr, DecidableEq

/-- One row of the SQLite `jobs` table created by `init_db` in `app.py`
(the auto-assigned id and the scraped_at timestamp are omitted; `job_url`
is the UNIQUE key). -/
structure DbRow where
  title : String
  company : String
  job_url : String
  date_posted : String
  location : String
  source : String
deriving Repr, DecidableEq

/-- Helper for the substring test: does `needle` occur as a contiguous
sublist starting at some position of the second argument? -/
def containsSubAux (needle : List Char) : List Char → Bool
  | [] => needle.isEmpty
  | c :: rest => needle.isPrefixOf (c :: rest) || containsSubAux needle rest

/-- Embedding of Python's `str.lower()` for the ASCII texts the filters
handle: lower-case each character. -/
def strLower (s : String) : String :=
  String.mk (s.data.map Char.toLower)

/-- Python's substring test `needle in hay` (both operands already
lower-cased by the callers below). -/
def containsSub (hay needle : String) : Bool :=
  containsSubAux needle.data hay.data

/-- US_LOCATIONS_TO_EXCLUDE from `job_scraper.py`. -/
def US_LOCATIONS_TO_EXCLUDE : List String :=
  ["USA", "United States", "North America", "APAC", "US Only", "Canada", "Mexico"]

/-- US_KEYWORDS_TO_EXCLUDE from `job_scraper.py`. -/
def US_KEYWORDS_TO_EXCLUDE : List String :=
  ["US authorization required", "Must reside in US", "US Citizens only", "Green Card",
   "Canada only", "Must reside in Canada", "North America only", "Must reside in North America"]

/-- ENTRY_LEVEL_POSITIVE from `job_scraper.py`. -/
def ENTRY_LEVEL_POSITIVE : List String :=
  ["junior", "entry level", "entry-level", "graduate", "internship", "intern",
   "0-1 years", "0-2 years", "no experience", "recent graduate", "new grad",
   "trainee", "associate"]

/-- EXPERIENCE_KEYWORDS_TO_EXCLUDE from `job_scraper.py`. -/
def EXPERIENCE_KEYWORDS_TO_EXCLUDE : List String :=
  ["senior", "lead", "principal", "staff", "architect", "director", "manager",
   "5+ years", "5-7 years", "7+ years", "10+ years", "expert", "experienced"]

/-- Embedding of `is_eu_friendly(job)` from `job_scraper.py`: the two
exclusion loops, the first over the location text, the second over the
description text; if neither matches the job is included. -/
def is_eu_friendly (job : Job) : Bool :=
  let location := strLower job.location
  let description := strLower job.description
  if US_LOCATIONS_TO_EXCLUDE.any (fun loc => containsSub location (strLower loc)) then
    false
  else if US_KEYWORDS_TO_EXCLUDE.any (fun kw => containsSub description (strLower kw)) then
    false
  else
    true

/-- Embedding of `is_entry_level(job)` from `job_scraper.py`: the
seniority-exclusion loop over title and description, then the
entry-level-inclusion loop, then the permissive fallback. -/
def is_entry_level (job : Job) : Bool :=
  let title := strLower job.title
  let description := strLower job.description
  if EXPERIENCE_KEYWORDS_TO_EXCLUDE.any
      (fun kw => containsSub title (strLower kw) || containsSub description (strLower kw)) then
    false
  else if ENTRY_LEVEL_POSITIVE.any
      (fun kw => containsSub title (strLower kw) || containsSub description (strLower kw)) then
    true
  else
    true

/-- The location stage of the filtering loop in `scrape_and_filter_jobs`
(job_scraper.py): the row is dropped when it is neither Sweden-local nor
from a remote-only board and `is_eu_friendly` rejects it; rows carrying
either flag skip the location check. -/
def location_check_passes (job : Job) : Bool :=
  job.is_sweden_local || job.is_remote_board || is_eu_friendly job

/-- One row of the filtering loop in `scrape_and_filter_jobs`: the
entry-level check applies to every row, then the location stage. -/
def passes_filters (job : Job) : Bool :=
  is_entry_level job && location_check_passes job

/-- The filtering loop of `scrape_and_filter_jobs` over the deduplicated
working set: keep the rows that pass both checks, in order. -/
def filter_jobs (rows : List Job) : List Job :=
  rows.filter passes_filters

/-- Helper for `drop_duplicates`: walk the rows in order keeping a row
only when its `job_url` has not been seen yet. -/
def dedupByUrl (seen : List String) : List Job → List Job
  | [] => []
  | r :: rest =>
    if seen.contains r.job_url then dedupByUrl seen rest
    else r :: dedupByUrl (r.job_url :: seen) rest

/-- Embedding of `full_df.drop_duplicates(subset=['job_url'])` in
`scrape_and_filter_jobs` (pandas default `keep='first'`): the first row
with each `job_url` value survives, in the original order. -/
def drop_duplicates (rows : List Job) : List Job :=
  dedupByUrl [] rows

/-- Embedding of `pd.concat(all_jobs, ignore_index=True)`: the combined
working set is the concatenation of the per-source frames in order. -/
def concat_frames (frames : List (List Job)) : List Job :=
  frames.foldl (fun acc f => acc ++ f) []

/-- The stored-row view of a job, as written by the INSERT statement of
`save_jobs_to_db` in `app.py` (six columns). -/
def toDbRow (job : Job) : DbRow :=
  { title := job.title, company := job.company, job_url := job.job_url,
    date_posted := job.date_posted, location := job.location, source := job.site }

/-- One `INSERT OR REPLACE INTO jobs ...` execution: since `job_url` is
UNIQUE, any existing row with the same `job_url` is replaced by the new
row; otherwise the new row is appended. -/
def upsert (db : List DbRow) (job : Job) : List DbRow :=
  db.filter (fun row => !(row.job_url == job.job_url)) ++ [toDbRow job]

/-- Embedding of `save_jobs_to_db(df)` from `app.py`.  The first
component is the table after the run; the second is the count printed by
`print(f"Saved {len(df)} jobs to database")` — `none` when the function
returned early on an empty dataframe, before opening the database. -/
def save_jobs_to_db (df : List Job) (db : List DbRow) : List DbRow × Option Nat :=
  if df.isEmpty then (db, none)
  else (df.foldl upsert db, some df.length)

/-- Embedding of the `safe_scrape` decorator shared by
`remote_boards.py` and `swedish_boards.py`: the wrapped call either
returns the body's rows, or — when the body raises — catches the
exception, logs it, and returns an empty dataframe. -/
def safe_scrape (f : Unit → Except String (List Job)) : Unit → List Job :=
  fun _ =>
    match f () with
    | Except.ok rows => rows
    | Except.error _ => []

/-- Helper for `feed_adapter_body`: process entries in order, appending
each parsed job to the accumulator; a parse exception is caught by the
adapter's inner try/except, which keeps the jobs collected so far. -/
def feed_collect : List (Except String Job) → List Job → List Job
  | [], acc => acc
  | Except.ok j :: rest, acc => feed_collect rest (acc ++ [j])
  | Except.error _ :: _, acc => acc

/-- The feed-adapter body pattern of `remote_boards.py` (e.g.
`fetch_remotive_jobs`): a loop appends one job per feed entry inside a
try/except, so a failure mid-call returns the jobs collected before it. -/
def feed_adapter_body (entries : List (Except String Job)) : List Job :=
  feed_collect entries []

/-- Embedding of `run_scraper` from `app.py`.  `scrape` is the result of
`scrape_and_filter_jobs()` and `save` the persistence call, each of which
may raise (`Except.error`).  The whole body sits inside `try/except
Exception`, so every branch returns normally (`Except.ok`); the
`Option String` component is the message passed to `logger.error`, if
any.  An `Except.error` result would model an exception escaping
`run_scraper`; the translation of the catch-all handler never produces
one. -/
def run_scraper (scrape : Except String (List Job))
    (save : List Job → List DbRow → Except String (List DbRow))
    (db : List DbRow) : Except String (List DbRow × Option String) :=
  match scrape with
  | Except.error e => Except.ok (db, some ("Error during scheduled scrape: " ++ e))
  | Except.ok df =>
    match save df db with
    | Except.error e => Except.ok (db, some ("Error during scheduled scrape: " ++ e))
    | Except.ok db2 => Except.ok (db2, none)

/-- Modelled from the spec's words, for comparison with the code's
location stage: "exclude the record if its `location` text or
`description` text contains any entry from a configured exclusion list of
location names or exclusionary phrases" — both texts checked against both
lists. -/
def spec_location_excluded (job : Job) : Bool :=
  (US_LOCATIONS_TO_EXCLUDE ++ US_KEYWORDS_TO_EXCLUDE).any fun e =>
    containsSub (strLower job.location) (strLower e) ||
      containsSub (strLower job.description) (strLower e)

/-- Concrete record with an empty `job_url` that passes both filters:
entry-level by the "junior" keyword, location-eligible because nothing in
its texts matches an exclusion entry. -/
def c1job : Job :=
  { title := "Junior Developer", company := "Acme", job_url := "",
    date_posted := "2025-01-01", location := "Remote", description := "",
    site := "Remotive", is_sweden_local := false, is_remote_board := false }

/-- Concrete unflagged record whose `description` contains the
location-name entry "US Only" while its `location` is empty; no entry of
the phrase list occurs in the description, so `is_eu_friendly` keeps it. -/
def c5job : Job :=
  { title := "Junior Developer", company := "Acme", job_url := "https://x.example/1",
    date_posted := "2025-01-01", location := "", description := "US Only role",
    site := "indeed", is_sweden_local := false, is_remote_board := false }

/-- Concrete unflagged record whose `location` contains the exclusion
entry "USA". -/
def w5job : Job :=
  { title := "Junior Developer", company := "Acme", job_url := "https://x.example/2",
    date_posted := "2025-01-01", location := "USA office", description := "",
    site := "indeed", is_sweden_local := false, is_remote_board := false }

/-- Concrete record whose title contains "Senior" together with the
entry-level keywords "junior" and "graduate". -/
def c4job : Job :=
  { title := "Senior Junior Graduate Engineer", company := "Acme",
    job_url := "https://x.example/3", date_posted := "2025-01-01",
    location := "Remote", description := "graduate welcome",
    site := "indeed", is_sweden_local := false, is_remote_board := false }

/-- First valid posting of scenario adapter A. -/
def pA1 : Job :=
  { title := "Junior Data Engineer", company := "Alpha", job_url := "https://a.example/1",
    date_posted := "2025-09-01", location := "Remote", description := "",
    site := "Remotive", is_sweden_local := false, is_remote_board := true }

/-- Second valid posting of scenario adapter A. -/
def pA2 : Job :=
  { title := "Graduate Backend Engineer", company := "Alpha", job_url := "https://a.example/2",
    date_posted := "2025-09-02", location := "Remote", description := "",
    site := "Remotive", is_sweden_local := false, is_remote_board := true }

/-- Posting of scenario adapter B whose url duplicates `pA1`. -/
def qB1 : Job :=
  { title := "Junior Data Engineer", company := "Alpha", job_url := "https://a.example/1",
    date_posted := "2025-09-01", location := "Remote", description := "",
    site := "Jobicy", is_sweden_local := false, is_remote_board := true }

/-- Second posting of scenario adapter B. -/
def qB2 : Job :=
  { title := "Entry Level QA Engineer", company := "Beta", job_url := "https://b.example/2",
    date_posted := "2025-09-03", location := "Remote", description := "",
    site := "Jobicy", is_sweden_local := false, is_remote_board := true }

/-- Third posting of scenario adapter B. -/
def qB3 : Job :=
  { title := "Junior DevOps Engineer", company := "Beta", job_url := "https://b.example/3",
    date_posted := "2025-09-04", location := "Remote", description := "",
    site := "Jobicy", is_sweden_local := false, is_remote_board := true }

/-- Scenario adapter A's entry stream: two entries parse, then the call
throws. -/
def entriesA : List (Except String Job) :=
  [Except.ok pA1, Except.ok pA2, Except.error "connection reset mid-call"]

/-- Scenario adapter A's result: the feed body collects two postings
before the mid-call failure, wrapped by `safe_scrape`. -/
def adapterA : List Job :=
  safe_scrape (fun _ => Except.ok (feed_adapter_body entriesA)) ()

/-- Scenario adapter B's result: three postings, the first duplicating a
url of adapter A. -/
def adapterB : List Job :=
  [qB1, qB2, qB3]

/-- A persistence step modelling an unavailable store: every call
raises. -/
def failing_save : List Job → List DbRow → Except String (List DbRow) :=
  fun _ _ => Except.error "store unavailable"

/-! Theorems -/

/-- Claim C10: calling the persistence operation with an empty record set
returns before opening the database (no count printed) and leaves the
store completely unchanged. -/
theorem c10_empty_save_noop : ∀ db : List DbRow, save_jobs_to_db [] db = (db, none) :=
  fun _ => rfl

/-- Claim C2: a failure arising inside an adapter body does not raise past the
`safe_scrape` boundary: the wrapped call returns an empty sequence of
records instead of propagating the exception. -/
theorem c2_adapter_error_contained :
    ∀ (f : Unit → Except String (List Job)) (e : String),
      f () = Except.error e → safe_scrape f () = [] := by
  intro f e h
  simp [safe_scrape, h]

/-- Witness for C2 at a concrete always-failing adapter body. -/
theorem c2_adapter_error_contained_witness :
    (fun _ : Unit => (Except.error "network timeout" : Except String (List Job))) ()
        = Except.error "network timeout" ∧
      safe_scrape (fun _ => Except.error "network timeout") () = [] :=
  ⟨rfl, c2_adapter_error_contained (fun _ => Except.error "network timeout") "network timeout" rfl⟩

/-- Claim C3: in the scenario where adapter A yields two valid postings and
then throws mid-call and adapter B returns three postings, one of which
duplicates a url from A, the combined working set has 5 records and the
deduplicated set has 4. -/
theorem c3_scenario_counts :
    (concat_frames [adapterA, adapterB]).length = 5 ∧
      (drop_duplicates (concat_frames [adapterA, adapterB])).length = 4 := by
  decide

/-- Claim C8 counterexample: with an empty filtered set the gateway returns
early and reports nothing, not the input count 0. -/
theorem c8_empty_set_reports_nothing :
    (save_jobs_to_db ([] : List Job) ([] : List DbRow)).2
      ≠ some (([] : List Job)).length := by
  decide

/-- Claim C8 amended: for every non-empty filtered record set, the persistence
gateway reports the number of records in the input, counting upserts and
inserts alike. -/
theorem c8_save_reports_input_count :
    ∀ (df : List Job) (db : List DbRow), df ≠ [] →
      (save_jobs_to_db df db).2 = some df.length := by
  intro df db h
  simp [save_jobs_to_db, h]

/-- Witness for C8 at a concrete one-record set. -/
theorem c8_save_reports_input_count_witness :
    [pA1] ≠ ([] : List Job) ∧ (save_jobs_to_db [pA1] []).2 = some [pA1].length :=
  ⟨by decide, c8_save_reports_input_count [pA1] [] (by decide)⟩

/-- Claim C9 counterexample: when persistence fails (store unavailable),
`run_scraper` returns normally with the error merely logged — the failure
does not propagate to the caller as an explicit error. -/
theorem c9_persistence_failure_swallowed :
    run_scraper (Except.ok [pA1]) failing_save []
      = Except.ok ([], some "Error during scheduled scrape: store unavailable") :=
  rfl

/-- Claim C9 amended: no error class propagates out of `run_scraper`; every
failure, persistence failure included, is caught by the catch-all handler
and converted into a normal (logged) return. -/
theorem c9_run_scraper_never_raises :
    ∀ (scrape : Except String (List Job))
      (save : List Job → List DbRow → Except String (List DbRow))
      (db : List DbRow), ∃ r, run_scraper scrape save db = Except.ok r := by
  intro scrape save db
  cases scrape with
  | error e => exact ⟨(db, some ("Error during scheduled scrape: " ++ e)), rfl⟩
  | ok df =>
    cases h : save df db with
    | error e =>
      refine ⟨(db, some ("Error during scheduled scrape: " ++ e)), ?_⟩
      simp [run_scraper, h]
    | ok db2 =>
      refine ⟨(db2, none), ?_⟩
      simp [run_scraper, h]

/-- Claim C1 counterexample: a record with an empty url that survives
filtering is persisted — after the run, a stored row has an empty url. -/
theorem c1_empty_url_persisted_counterexample :
    ((save_jobs_to_db (filter_jobs (drop_duplicates [c1job])) []).1.filter
        (fun r => r.job_url == "")).length = 1 := by
  decide

/-- Claim C4: a record whose title contains "senior" (after lower-casing) is
excluded by the seniority check, whatever else the title or description
contains — the exclusion loop runs before, and dominates, the inclusion
loop. -/
theorem c4_senior_title_excluded :
    ∀ job : Job, containsSub (strLower job.title) "senior" = true →
      is_entry_level job = false := by
  intro job h
  have hany : EXPERIENCE_KEYWORDS_TO_EXCLUDE.any
      (fun kw => containsSub (strLower job.title) (strLower kw)
        || containsSub (strLower job.description) (strLower kw)) = true := by
    apply List.any_eq_true.mpr
    refine ⟨"senior", by decide, ?_⟩
    show (containsSub (strLower job.title) (strLower "senior")
      || containsSub (strLower job.description) (strLower "senior")) = true
    have hs : strLower "senior" = "senior" := rfl
    rw [hs, h]
    simp
  simp [is_entry_level, hany]

/-- Witness for C4 at a title that also carries the entry-level keywords
"junior" and "graduate". -/
theorem c4_senior_title_excluded_witness :
    containsSub (strLower c4job.title) "senior" = true ∧ is_entry_level c4job = false :=
  ⟨by decide, c4_senior_title_excluded c4job (by decide)⟩

/-- Claim C5 counterexample: an unflagged record whose description contains
the location-name entry "US Only" is excluded under the claim's reading
(both texts checked against both lists), yet the code's location stage
includes it — the location-name list is only checked against the
location text. -/
theorem c5_location_claim_counterexample :
    c5job.is_sweden_local = false ∧ c5job.is_remote_board = false ∧
      spec_location_excluded c5job = true ∧ location_check_passes c5job = true := by
  decide

/-- Claim C5 amended: for every unflagged record, the location stage excludes
it iff its location text contains a location-name entry or its
description text contains an exclusionary-phrase entry (each list checked
only against its own text); records carrying either flag skip the check
and pass. -/
theorem c5_location_check_characterization : ∀ job : Job,
    (job.is_sweden_local = false → job.is_remote_board = false →
      (location_check_passes job = false ↔
        (US_LOCATIONS_TO_EXCLUDE.any
            (fun loc => containsSub (strLower job.location) (strLower loc)) = true ∨
         US_KEYWORDS_TO_EXCLUDE.any
            (fun kw => containsSub (strLower job.description) (strLower kw)) = true)))
    ∧ ((job.is_sweden_local = true ∨ job.is_remote_board = true) →
        location_check_passes job = true) := by
  intro job
  constructor
  · intro h1 h2
    cases hA : US_LOCATIONS_TO_EXCLUDE.any
        (fun loc => containsSub (strLower job.location) (strLower loc)) with
    | true => simp [location_check_passes, h1, h2, is_eu_friendly, hA]
    | false =>
      cases hB : US_KEYWORDS_TO_EXCLUDE.any
          (fun kw => containsSub (strLower job.description) (strLower kw)) with
      | true => simp [location_check_passes, h1, h2, is_eu_friendly, hA, hB]
      | false => simp [location_check_passes, h1, h2, is_eu_friendly, hA, hB]
  · intro h
    rcases h with h | h <;> simp [location_check_passes, h]

/-- Witness for C5 at an unflagged record whose location contains
"USA". -/
theorem c5_location_check_characterization_witness :
    location_check_passes w5job = false :=
  ((c5_location_check_characterization w5job).1 rfl rfl).mpr (Or.inl (by decide))

/-- Deduplication only ever drops rows: its output is a sublist of its
input, so relative order is preserved. -/
theorem dedupByUrl_sublist : ∀ (rows : List Job) (seen : List String),
    (dedupByUrl seen rows).Sublist rows := by
  intro rows
  induction rows with
  | nil => intro seen; simp [dedupByUrl]
  | cons r rest ih =>
    intro seen
    by_cases h : seen.contains r.job_url = true
    · simp only [dedupByUrl, h, if_true]
      exact (ih seen).cons r
    · simp only [dedupByUrl, h, Bool.false_eq_true, if_false]
      exact (ih (r.job_url :: seen)).cons₂ r

/-- No row with an already-seen url appears in the deduplicated
output. -/
theorem dedupByUrl_filter_mem_seen : ∀ (rows : List Job) (seen : List String) (u : String),
    u ∈ seen → (dedupByUrl seen rows).filter (fun x => x.job_url == u) = [] := by
  intro rows
  induction rows with
  | nil => intro seen u _; simp [dedupByUrl]
  | cons r rest ih =>
    intro seen u hu
    by_cases h : seen.contains r.job_url = true
    · simp only [dedupByUrl, h, if_true]
      exact ih seen u hu
    · simp only [dedupByUrl, h, Bool.false_eq_true, if_false]
      rw [List.filter_cons]
      have hne : (r.job_url == u) = false := by
        apply beq_eq_false_iff_ne.mpr
        intro heq
        exact h (List.elem_iff.mpr (heq ▸ hu))
      simp only [hne, Bool.false_eq_true, if_false]
      exact ih (r.job_url :: seen) u (List.mem_cons_of_mem _ hu)

/-- For an unseen url occurring in the input, the deduplicated output
contains exactly one row with that url: the first occurrence. -/
theorem dedupByUrl_filter_first : ∀ (rows : List Job) (seen : List String) (u : String),
    u ∉ seen → u ∈ rows.map Job.job_url →
    ∃ r, rows.find? (fun x => x.job_url == u) = some r ∧
      (dedupByUrl seen rows).filter (fun x => x.job_url == u) = [r] := by
  intro rows
  induction rows with
  | nil => intro seen u _ hm; simp at hm
  | cons r rest ih =>
    intro seen u hs hm
    by_cases hr : r.job_url = u
    · have hcon : seen.contains r.job_url = false := by
        cases hc : seen.contains r.job_url with
        | false => rfl
        | true => exact absurd (hr ▸ List.elem_iff.mp hc) hs
      refine ⟨r, ?_, ?_⟩
      · rw [List.find?_cons_of_pos]
        exact beq_iff_eq.mpr hr
      · simp only [dedupByUrl, hcon, Bool.false_eq_true, if_false]
        rw [List.filter_cons]
        simp only [beq_iff_eq.mpr hr, if_true]
        rw [dedupByUrl_filter_mem_seen rest (r.job_url :: seen) u
          (by rw [hr]; exact List.mem_cons_self u seen)]
    · have hm' : u ∈ rest.map Job.job_url := by
        rcases List.mem_cons.mp hm with heq | h'
        · exact absurd heq.symm hr
        · exact h'
      have hneb : (r.job_url == u) = false := beq_eq_false_iff_ne.mpr hr
      by_cases hc : seen.contains r.job_url = true
      · obtain ⟨w, hfind, hfilt⟩ := ih seen u hs hm'
        refine ⟨w, ?_, ?_⟩
        · rw [List.find?_cons_of_neg, hfind]
          simp [hneb]
        · simp only [dedupByUrl, hc, if_true]
          exact hfilt
      · obtain ⟨w, hfind, hfilt⟩ := ih (r.job_url :: seen) u
          (by intro hmem
              rcases List.mem_cons.mp hmem with heq | hmem'
              · exact hr heq.symm
              · exact hs hmem') hm'
        refine ⟨w, ?_, ?_⟩
        · rw [List.find?_cons_of_neg, hfind]
          simp [hneb]
        · simp only [dedupByUrl, hc, Bool.false_eq_true, if_false]
          rw [List.filter_cons]
          simp only [hneb, Bool.false_eq_true, if_false]
          exact hfilt

/-- Claim C6: for any input sequence and any non-empty url occurring in
it, exactly one record with that url survives `drop_duplicates`, the
survivor is the first occurrence (`find?`), and the output is a sublist
of the input, preserving the relative order of first occurrences. -/
theorem c6_dedup_first_occurrence : ∀ (rows : List Job) (u : String),
    u ≠ "" → u ∈ rows.map Job.job_url →
    (∃ r, rows.find? (fun x => x.job_url == u) = some r ∧
        (drop_duplicates rows).filter (fun x => x.job_url == u) = [r]) ∧
      (drop_duplicates rows).Sublist rows := by
  intro rows u _ hm
  exact ⟨dedupByUrl_filter_first rows [] u (by simp) hm, dedupByUrl_sublist rows []⟩

/-- Witness for C6 at a two-record list sharing one url. -/
theorem c6_dedup_first_occurrence_witness :
    ("https://a.example/1" ≠ "" ∧ "https://a.example/1" ∈ [pA1, qB1].map Job.job_url) ∧
      ((∃ r, [pA1, qB1].find? (fun x => x.job_url == "https://a.example/1") = some r ∧
          (drop_duplicates [pA1, qB1]).filter
            (fun x => x.job_url == "https://a.example/1") = [r]) ∧
        (drop_duplicates [pA1, qB1]).Sublist [pA1, qB1]) :=
  ⟨⟨by decide, by decide⟩,
    c6_dedup_first_occurrence [pA1, qB1] "https://a.example/1" (by decide) (by decide)⟩

/-- An upsert never loses a url already present in the table. -/
theorem mem_urls_upsert (db : List DbRow) (job : Job) (u : String)
    (h : u ∈ db.map DbRow.job_url) : u ∈ (upsert db job).map DbRow.job_url := by
  by_cases he : u = job.job_url
  · subst he; simp [upsert, toDbRow]
  · simp only [upsert, List.map_append, List.mem_append]
    left
    obtain ⟨row, hrow, hurl⟩ := List.mem_map.mp h
    apply List.mem_map.mpr
    refine ⟨row, ?_, hurl⟩
    apply List.mem_filter.mpr
    refine ⟨hrow, ?_⟩
    rw [hurl]
    simp [he]

/-- The upserted record's url is present in the table afterwards. -/
theorem url_mem_upsert (db : List DbRow) (job : Job) :
    job.job_url ∈ (upsert db job).map DbRow.job_url := by
  simp [upsert, toDbRow]

/-- An upsert preserves the UNIQUE constraint on `job_url`. -/
theorem nodup_urls_upsert (db : List DbRow) (job : Job)
    (h : (db.map DbRow.job_url).Nodup) : ((upsert db job).map DbRow.job_url).Nodup := by
  simp only [upsert, List.map_append]
  apply List.Nodup.append
  · exact List.Nodup.sublist (List.Sublist.map DbRow.job_url (List.filter_sublist db)) h
  · simp
  · intro a ha hb
    simp only [List.map_cons, List.map_nil, List.mem_singleton] at hb
    obtain ⟨row, hrow, hurl⟩ := List.mem_map.mp ha
    have hkeep := (List.mem_filter.mp hrow).2
    rw [hurl, hb] at hkeep
    simp [toDbRow] at hkeep

/-- Urls present before a sequence of upserts are present after it. -/
theorem foldl_upsert_mem_urls : ∀ (df : List Job) (db : List DbRow) (u : String),
    u ∈ db.map DbRow.job_url → u ∈ (df.foldl upsert db).map DbRow.job_url := by
  intro df
  induction df with
  | nil => intro db u h; simpa using h
  | cons j rest ih => intro db u h; exact ih (upsert db j) u (mem_urls_upsert db j u h)

/-- After saving a record set, every input record's url is in the
table. -/
theorem foldl_upsert_mem_urls_of_input : ∀ (df : List Job) (db : List DbRow) (j : Job),
    j ∈ df → j.job_url ∈ (df.foldl upsert db).map DbRow.job_url := by
  intro df
  induction df with
  | nil => intro db j h; simp at h
  | cons k rest ih =>
    intro db j h
    rcases List.mem_cons.mp h with heq | hmem
    · subst heq
      exact foldl_upsert_mem_urls rest (upsert db j) j.job_url (url_mem_upsert db j)
    · exact ih (upsert db k) j hmem

/-- A sequence of upserts preserves the UNIQUE constraint on
`job_url`. -/
theorem foldl_upsert_nodup : ∀ (df : List Job) (db : List DbRow),
    (db.map DbRow.job_url).Nodup → ((df.foldl upsert db).map DbRow.job_url).Nodup := by
  intro df
  induction df with
  | nil => intro db h; simpa using h
  | cons j rest ih => intro db h; exact ih (upsert db j) (nodup_urls_upsert db j h)

/-- Removing the rows with a url known to occur once (by uniqueness)
shrinks the table by exactly one row. -/
theorem filter_ne_url_length : ∀ (db : List DbRow) (u : String),
    (db.map DbRow.job_url).Nodup → u ∈ db.map DbRow.job_url →
    (db.filter (fun row => !(row.job_url == u))).length + 1 = db.length := by
  intro db
  induction db with
  | nil => intro u _ hm; simp at hm
  | cons r rest ih =>
    intro u hnd hm
    simp only [List.map_cons, List.nodup_cons] at hnd
    rw [List.filter_cons]
    by_cases hr : r.job_url = u
    · have hb : (!(r.job_url == u)) = false := by simp [hr]
      simp only [hb, Bool.false_eq_true, if_false]
      have hrest : rest.filter (fun row => !(row.job_url == u)) = rest := by
        apply List.filter_eq_self.mpr
        intro row hrow
        have : row.job_url ≠ u := by
          intro heq
          apply hnd.1
          rw [hr]
          exact List.mem_map.mpr ⟨row, hrow, heq⟩
        simp [this]
      rw [hrest, List.length_cons]
    · have hb : (!(r.job_url == u)) = true := by simp [hr]
      simp only [hb, if_true]
      have hm' : u ∈ rest.map DbRow.job_url := by
        rcases List.mem_cons.mp hm with heq | h'
        · exact absurd heq.symm hr
        · exact h'
      rw [List.length_cons, List.length_cons, ih u hnd.2 hm']

/-- Upserting a record whose url is already stored leaves the row count
unchanged. -/
theorem upsert_length_of_mem (db : List DbRow) (job : Job)
    (hnd : (db.map DbRow.job_url).Nodup) (hm : job.job_url ∈ db.map DbRow.job_url) :
    (upsert db job).length = db.length := by
  rw [upsert, List.length_append, List.length_singleton]
  exact filter_ne_url_length db job.job_url hnd hm

/-- Saving a record set whose urls are all already stored leaves the row
count unchanged. -/
theorem foldl_upsert_length : ∀ (df : List Job) (db : List DbRow),
    (db.map DbRow.job_url).Nodup → (∀ j ∈ df, j.job_url ∈ db.map DbRow.job_url) →
    (df.foldl upsert db).length = db.length := by
  intro df
  induction df with
  | nil => intro db _ _; rfl
  | cons j rest ih =>
    intro db hnd hall
    have h1 : j.job_url ∈ db.map DbRow.job_url := hall j (List.mem_cons_self j rest)
    have h2 : (rest.foldl upsert (upsert db j)).length = (upsert db j).length :=
      ih (upsert db j) (nodup_urls_upsert db j hnd)
        (fun k hk => mem_urls_upsert db j k.job_url (hall k (List.mem_cons_of_mem j hk)))
    rw [List.foldl_cons, h2, upsert_length_of_mem db j hnd h1]

/-- Claim C7: the persistence operation is idempotent with respect to
stored row count — for every record set and every table state satisfying
the url UNIQUE constraint, running the upsert twice with the identical
set leaves the same number of rows as running it once. -/
theorem c7_save_idempotent_rowcount : ∀ (df : List Job) (db : List DbRow),
    (db.map DbRow.job_url).Nodup →
    ((save_jobs_to_db df (save_jobs_to_db df db).1).1).length
      = ((save_jobs_to_db df db).1).length := by
  intro df db hnd
  by_cases hdf : df.isEmpty = true
  · simp [save_jobs_to_db, hdf]
  · simp only [save_jobs_to_db, hdf, Bool.false_eq_true, if_false]
    exact foldl_upsert_length df (df.foldl upsert db)
      (foldl_upsert_nodup df db hnd)
      (fun j hj => foldl_upsert_mem_urls_of_input df db j hj)

/-- Witness for C7 at a one-record set over the empty table. -/
theorem c7_save_idempotent_rowcount_witness :
    ((([] : List DbRow).map DbRow.job_url).Nodup) ∧
      ((save_jobs_to_db [pA1] (save_jobs_to_db [pA1] []).1).1).length
        = ((save_jobs_to_db [pA1] []).1).length :=
  ⟨by simp, c7_save_idempotent_rowcount [pA1] [] (by simp)⟩

/-- Under the url UNIQUE constraint, at most one stored row has any
given url. -/
theorem filter_url_length_le_one : ∀ (db : List DbRow) (u : String),
    (db.map DbRow.job_url).Nodup →
    (db.filter (fun r => r.job_url == u)).length ≤ 1 := by
  intro db
  induction db with
  | nil => intro u _; simp
  | cons r rest ih =>
    intro u hnd
    simp only [List.map_cons, List.nodup_cons] at hnd
    rw [List.filter_cons]
    by_cases hr : r.job_url = u
    · have hb : (r.job_url == u) = true := beq_iff_eq.mpr hr
      simp only [hb, if_true]
      have hrest : rest.filter (fun x => x.job_url == u) = [] := by
        apply List.filter_eq_nil_iff.mpr
        intro row hrow
        intro hbeq
        apply hnd.1
        rw [hr]
        exact List.mem_map.mpr ⟨row, hrow, beq_iff_eq.mp hbeq⟩
      rw [hrest]
      simp
    · have hb : (r.job_url == u) = false := beq_eq_false_iff_ne.mpr hr
      simp only [hb, Bool.false_eq_true, if_false]
      exact ih u hnd.2

/-- Claim C1 amended: an empty-url record is not excluded by the
deduplication/persistence path — it is deduplicated and persisted like
any other — but the url UNIQUE constraint bounds the damage: after any
run over a table satisfying the constraint, at most one stored row has
an empty url. -/
theorem c1_empty_url_at_most_one_stored : ∀ (rows : List Job) (db : List DbRow),
    (db.map DbRow.job_url).Nodup →
    ((save_jobs_to_db (filter_jobs (drop_duplicates rows)) db).1.filter
        (fun r => r.job_url == "")).length ≤ 1 := by
  intro rows db hnd
  by_cases h : (filter_jobs (drop_duplicates rows)).isEmpty = true
  · simp only [save_jobs_to_db, h, if_true]
    exact filter_url_length_le_one db "" hnd
  · simp only [save_jobs_to_db, h, Bool.false_eq_true, if_false]
    exact filter_url_length_le_one _ "" (foldl_upsert_nodup _ db hnd)

/-- Witness for the amended C1 at the empty-url record over the empty
table. -/
theorem c1_empty_url_at_most_one_stored_witness :
    ((([] : List DbRow).map DbRow.job_url).Nodup) ∧
      ((save_jobs_to_db (filter_jobs (drop_duplicates [c1job])) []).1.filter
          (fun r => r.job_url == "")).length ≤ 1 :=
  ⟨by simp, c1_empty_url_at_most_one_stored [c1job] [] (by simp)⟩
